import Mathlib

/-!
Shallow embedding of `src/analyze_imdb.py` (the `analyse` pipeline):
a chunked streaming aggregation over IMDb title rows joined with a
ratings table, followed by finalization into derived tables.

Modelling conventions:
* Python floats are modelled by `Rat` (exact arithmetic); the claims under
  study are structural, not about rounding.
* `read_csv` field coercion (`pd.to_numeric(errors="coerce")`) happens
  upstream of the aggregation core, so a `TitleRow` carries the
  post-coercion values: `startYear : Option Int`, `runtimeMinutes : Option Rat`.
* In `ratings_df` the declared dtype of `numVotes` is `int32`, so a missing
  vote count would abort the load; hence `numVotes : Nat` is total.
  `averageRating` carries the rating (the IMDb ratings table has no
  missing values in that column).
* pandas operations that raise on the empty-record corner
  (`pd.DataFrame([]).dropna(subset=[...])` raises `KeyError`;
  `pd.concat([])` raises `ValueError`) are modelled with `Except String`.
-/

namespace ImdbAnalyze

/-- One row of `title.ratings.tsv` after loading: `ratings_df` keyed by
`tconst` (`set_index` keeps duplicate keys, it does not deduplicate). -/
structure RatingRow where
  tconst : String
  averageRating : Rat
  numVotes : Nat
deriving Repr, DecidableEq

/-- One row of a `title.basics.tsv` chunk, after the numeric coercions of
lines 110-111 of the source (`pd.to_numeric(..., errors="coerce")`). -/
structure TitleRow where
  tconst : String
  titleType : String
  primaryTitle : String
  startYear : Option Int
  runtimeMinutes : Option Rat
  genres : Option String
deriving Repr, DecidableEq

/-- A title row enriched with its matched rating record (line 108:
`movies.join(ratings_df, how="inner", on="tconst")`). -/
structure JoinedMovie where
  tconst : String
  primaryTitle : String
  startYear : Option Int
  runtimeMinutes : Option Rat
  genres : Option String
  averageRating : Rat
  numVotes : Nat
deriving Repr, DecidableEq

/-- Lookup in the rating index: all rating rows whose key matches `t`
(a pandas index lookup on a non-unique index returns every match). -/
def ratingLookup (ratings : List RatingRow) (t : String) : List RatingRow :=
  ratings.filter (fun r => r.tconst == t)

/-- Lines 107-108: filter a chunk to `titleType == "movie"` and inner-join
with the rating index on `tconst`.  Left order is preserved; each left row
joins once per matching rating row (pandas join-on-non-unique-index
semantics). -/
def joinChunk (ratings : List RatingRow) (chunk : List TitleRow) : List JoinedMovie :=
  (chunk.filter (fun t => t.titleType == "movie")).flatMap (fun t =>
    (ratingLookup ratings t.tconst).map (fun r =>
      { tconst := t.tconst
        primaryTitle := t.primaryTitle
        startYear := t.startYear
        runtimeMinutes := t.runtimeMinutes
        genres := t.genres
        averageRating := r.averageRating
        numVotes := r.numVotes }))

/-- The accumulator state of lines 80-85: counters and defaultdicts are
modelled as key lists (insertion-ordered, duplicate-free) plus total
functions that are `0` off the recorded keys; the three growing
collections are plain lists; `chunkCount` records how many batches were
consumed (`top_titles_frames` receives one frame per batch, so
`pd.concat(top_titles_frames)` succeeds iff `chunkCount ≠ 0`). -/
structure AggState where
  chunkCount : Nat
  mpyKeys : List Int
  mpy : Int → Nat
  ywKeys : List Int
  ywSum : Int → Rat
  ywVotes : Int → Nat
  gKeys : List String
  gSum : String → Rat
  gVotes : String → Nat
  gCount : String → Nat
  runtimes : List Rat
  topRows : List JoinedMovie
  scatter : List (Rat × Nat)

/-- Record a key the first time it is touched (Counter / defaultdict key
insertion). -/
def insertIfNew {α : Type} [DecidableEq α] (ks : List α) (k : α) : List α :=
  if k ∈ ks then ks else ks ++ [k]

/-- Point update of a total-function map. -/
def updFun {α β : Type} [DecidableEq α] (f : α → β) (k : α) (v : β) : α → β :=
  fun x => if x = k then v else f x

/-- Lines 113-122 for a single joined row: bump `movies_per_year` and the
per-year weighted accumulators when `startYear` is known (`numVotes` is
always known after the join, so `dropna(subset=["startYear","numVotes"])`
reduces to the year being known). -/
def stepYear (s : AggState) (r : JoinedMovie) : AggState :=
  match r.startYear with
  | none => s
  | some y =>
    { s with
      mpyKeys := insertIfNew s.mpyKeys y
      mpy := updFun s.mpy y (s.mpy y + 1)
      ywKeys := insertIfNew s.ywKeys y
      ywSum := updFun s.ywSum y (s.ywSum y + r.averageRating * (r.numVotes : Rat))
      ywVotes := updFun s.ywVotes y (s.ywVotes y + r.numVotes) }

/-- Lines 124-132 for a single joined row: collect the runtime sample when
known, append the row to the top-by-votes candidates, and append
`(rating, votes)` to the popularity collection when votes ≥ 50,000. -/
def stepCollect (s : AggState) (r : JoinedMovie) : AggState :=
  { s with
    runtimes := s.runtimes ++ (match r.runtimeMinutes with
      | some m => [m]
      | none => [])
    topRows := s.topRows ++ [r]
    scatter := s.scatter ++ (if 50000 ≤ r.numVotes then [(r.averageRating, r.numVotes)] else []) }

/-- Comma split on a character list: `splitOnComma "a,b".data` is
`["a".data, "b".data]`, and the empty list splits to `[[]]` — the
semantics of Python's `str.split(",")` (and of `String.splitOn ","`,
restated structurally). -/
def splitOnComma (cs : List Char) : List (List Char) :=
  match cs with
  | [] => [[]]
  | c :: rest =>
    if c = ',' then [] :: splitOnComma rest
    else
      match splitOnComma rest with
      | [] => [[c]]
      | g :: gs => (c :: g) :: gs

/-- Line 136-137: split the genre field on "," and drop sentinel tokens
(the explode filter `genre.notna() & (genre != "\N")`; `split` never
yields a missing element from a non-missing string). -/
def genreTokens (r : JoinedMovie) : List String :=
  match r.genres with
  | none => []
  | some g => ((splitOnComma g.data).map String.mk).filter (fun t => t ≠ "\\N")

/-- Lines 138-142 for one genre token of one row: bump that genre's
weighted-sum, vote-total and title count. -/
def stepGenreTok (rating : Rat) (votes : Nat) (s : AggState) (g : String) : AggState :=
  { s with
    gKeys := insertIfNew s.gKeys g
    gSum := updFun s.gSum g (s.gSum g + rating * (votes : Rat))
    gVotes := updFun s.gVotes g (s.gVotes g + votes)
    gCount := updFun s.gCount g (s.gCount g + 1) }

/-- Genre accumulation for one joined row (explode over its tokens). -/
def stepGenres (s : AggState) (r : JoinedMovie) : AggState :=
  (genreTokens r).foldl (stepGenreTok r.averageRating r.numVotes) s

/-- All per-row accumulator updates of the chunk loop body.  The source
updates each aggregate with a vectorised pass per chunk; since every
update is a per-key sum (exact `Rat`/`Nat` addition is associative and
commutative), folding row by row computes the same accumulator values. -/
def stepRow (s : AggState) (r : JoinedMovie) : AggState :=
  stepGenres (stepCollect (stepYear s r) r) r

/-- One iteration of the chunk loop (lines 105-146): join the chunk, fold
its joined rows into the accumulators, and record that one more batch
frame was appended to `top_titles_frames`. -/
def processChunk (ratings : List RatingRow) (s : AggState) (chunk : List TitleRow) : AggState :=
  { (joinChunk ratings chunk).foldl stepRow s with chunkCount := s.chunkCount + 1 }

/-- Lines 80-85: every accumulator starts empty. -/
def initState : AggState :=
  { chunkCount := 0
    mpyKeys := []
    mpy := fun _ => 0
    ywKeys := []
    ywSum := fun _ => 0
    ywVotes := fun _ => 0
    gKeys := []
    gSum := fun _ => 0
    gVotes := fun _ => 0
    gCount := fun _ => 0
    runtimes := []
    topRows := []
    scatter := [] }

/-- The whole streaming phase: fold the chunk iterator. -/
def runStream (ratings : List RatingRow) (chunks : List (List TitleRow)) : AggState :=
  chunks.foldl (processChunk ratings) initState

/-- The joined rows of the whole stream, in encounter order. -/
def joinedAll (ratings : List RatingRow) (chunks : List (List TitleRow)) : List JoinedMovie :=
  chunks.flatMap (joinChunk ratings)

/-- Direct (non-streaming) weighted rating sum for year `y` over a row
list: Σ rating·votes over rows whose known year is `y`. -/
def directWeightedSum (rows : List JoinedMovie) (y : Int) : Rat :=
  ((rows.filter (fun r => r.startYear == some y)).map
    (fun r => r.averageRating * (r.numVotes : Rat))).sum

/-- Direct vote total for year `y` over a row list. -/
def directVotes (rows : List JoinedMovie) (y : Int) : Nat :=
  ((rows.filter (fun r => r.startYear == some y)).map (fun r => r.numVotes)).sum

/-!  Finalization (lines 150-299): derived tables from the final state. -/

/-- Lines 150-155: `movies_per_year` sorted by year then restricted to
years ≥ 1900 (`movies_per_year_df[movies_per_year_df["year"] >= 1900]`). -/
def moviesPerYearTable (s : AggState) : List (Int × Nat) :=
  ((s.mpyKeys.insertionSort (· ≤ ·)).filter (fun y => decide (1900 ≤ y))).map
    (fun y => (y, s.mpy y))

/-- Line 274: `total_rated_movies` sums the `count` column of the (already
year-filtered) `movies_per_year_df`. -/
def totalRatedMovies (s : AggState) : Nat :=
  ((moviesPerYearTable s).map (fun p => p.2)).sum

/-- A row of `yearly_weighted_ratings.csv`. -/
structure YearlyRow where
  year : Int
  weighted_average_rating : Rat
  votes : Nat
deriving Repr, DecidableEq

/-- Lines 157-167.  For each accumulated year a record is built with
average `weighted_sum / votes` (`nan` when the vote total is zero); rows
whose average is `nan` are removed by `dropna` and the rest sorted by
year.  When `year_weighted_sums` is empty, `pd.DataFrame([])` has no
columns and `.dropna(subset=["weighted_average_rating"])` raises
`KeyError`, modelled as the error case. -/
def yearlyRatingsTableE (s : AggState) : Except String (List YearlyRow) :=
  if s.ywKeys = [] then Except.error "KeyError: weighted_average_rating"
  else
    Except.ok
      (((s.ywKeys.filter (fun y => decide (s.ywVotes y ≠ 0))).insertionSort (· ≤ ·)).map
        (fun y => { year := y
                    weighted_average_rating := s.ywSum y / (s.ywVotes y : Rat)
                    votes := s.ywVotes y }))

/-- A row of `genre_weighted_ratings.csv`. -/
structure GenreRow where
  genre : String
  title_count : Nat
  total_votes : Nat
  weighted_average_rating : Rat
deriving Repr, DecidableEq

/-- Lines 200-217: one record per accumulated genre, zero-vote genres
dropped by `dropna` (their average is `nan`), sorted by descending total
votes.  As with the yearly table, an empty `genre_stats` dict gives a
column-less `pd.DataFrame([])` and `dropna(subset=[...])` raises
`KeyError`.  The source sorts with an unstable quicksort, so the order of
equal-vote genres is unspecified; `insertionSort` realises one
deterministic descending order. -/
def genreTableE (s : AggState) : Except String (List GenreRow) :=
  if s.gKeys = [] then Except.error "KeyError: weighted_average_rating"
  else
    Except.ok
      (((s.gKeys.filter (fun g => decide (s.gVotes g ≠ 0))).insertionSort
          (fun g1 g2 => s.gVotes g2 ≤ s.gVotes g1)).map
        (fun g => { genre := g
                    title_count := s.gCount g
                    total_votes := s.gVotes g
                    weighted_average_rating := s.gSum g / (s.gVotes g : Rat) }))

/-- A row of `top_20_by_votes.csv`. -/
structure TopRow where
  tconst : String
  primaryTitle : String
  startYear : Option Int
  averageRating : Rat
  numVotes : Nat
deriving Repr, DecidableEq

/-- Projection of a joined row onto the top-titles columns (line 127). -/
def toTopRow (r : JoinedMovie) : TopRow :=
  { tconst := r.tconst
    primaryTitle := r.primaryTitle
    startYear := r.startYear
    averageRating := r.averageRating
    numVotes := r.numVotes }

/-- Descending-by-votes order used for the top table. -/
def topGE (a b : TopRow) : Prop := b.numVotes ≤ a.numVotes

instance : DecidableRel topGE := fun a b =>
  inferInstanceAs (Decidable (b.numVotes ≤ a.numVotes))

instance : IsTotal TopRow topGE :=
  ⟨fun a b => (le_total b.numVotes a.numVotes).imp id id⟩

instance : IsTrans TopRow topGE :=
  ⟨fun _ _ _ hab hbc => le_trans hbc hab⟩

/-- `drop_duplicates("tconst")`: keep the first occurrence of each key. -/
def dedupFirst (seen : List String) : List TopRow → List TopRow
  | [] => []
  | r :: rs =>
    if r.tconst ∈ seen then dedupFirst seen rs
    else r :: dedupFirst (r.tconst :: seen) rs

/-- Lines 219-225: concatenate the per-chunk candidate frames, drop rows
with missing votes (a no-op here: `numVotes` is total), sort by
descending votes, deduplicate by `tconst` keeping the first occurrence,
truncate to 20.  `pd.concat([])` raises `ValueError` when the stream
yielded zero batches.  The source's quicksort is unstable, so which of
two distinct equal-vote rows survives the cut is unspecified;
`insertionSort` realises one valid descending order. -/
def topTitlesTableE (s : AggState) : Except String (List TopRow) :=
  if s.chunkCount = 0 then Except.error "ValueError: No objects to concatenate"
  else Except.ok ((dedupFirst [] ((s.topRows.map toTopRow).insertionSort topGE)).take 20)

/-- Line 173: the fixed runtime bin edges, in minutes. -/
def runtimeBaseEdges : List Rat := [0, 60, 75, 90, 105, 120, 150, 180]

/-- Lines 172-175: append an overflow edge `max + 1` only when the
observed maximum strictly exceeds 180. -/
def runtimeEdges (rs : List Rat) : List Rat :=
  match rs with
  | [] => runtimeBaseEdges
  | r :: rest =>
    let m := rest.foldl max r
    if 180 < m then runtimeBaseEdges ++ [m + 1] else runtimeBaseEdges

/-- Lines 176-185: the bin labels, truncated to the number of bins. -/
def runtimeLabels : List String :=
  ["< 60 min", "60-74", "75-89", "90-104", "105-119", "120-149", "150-179", "180+"]

/-- `pd.cut(..., right=False)` bin counts: one count per consecutive edge
pair `[lo, hi)`; samples outside every interval are NaN and not counted. -/
def binCounts (edges : List Rat) (rs : List Rat) : List Nat :=
  (edges.zip edges.tail).map
    (fun p => (rs.filter (fun x => decide (p.1 ≤ x) && decide (x < p.2))).length)

/-- Lines 169-196: the runtime distribution table (empty when no runtime
sample was collected — the guard `if not runtime_series.empty`). -/
def runtimeBinsTable (s : AggState) : List (String × Nat) :=
  if s.runtimes = [] then []
  else
    (runtimeLabels.take ((runtimeEdges s.runtimes).length - 1)).zip
      (binCounts (runtimeEdges s.runtimes) s.runtimes)

/-- Line 235-244 vote-band edges: band 0-5 are `[edge, next)`, band 6 is
`[5000000, ∞)` (`right=False`). -/
def inBand (i : Nat) (v : Nat) : Bool :=
  match i with
  | 0 => decide (50000 ≤ v) && decide (v < 100000)
  | 1 => decide (100000 ≤ v) && decide (v < 200000)
  | 2 => decide (200000 ≤ v) && decide (v < 500000)
  | 3 => decide (500000 ≤ v) && decide (v < 1000000)
  | 4 => decide (1000000 ≤ v) && decide (v < 2000000)
  | 5 => decide (2000000 ≤ v) && decide (v < 5000000)
  | 6 => decide (5000000 ≤ v)
  | _ => false

/-- Lines 245-253: the vote-band labels, in category order. -/
def voteBandLabels : List String :=
  ["50k-100k", "100k-200k", "200k-500k", "500k-1M", "1M-2M", "2M-5M", "5M+"]

/-- pandas `Series.mean` over the ratings of a member list, `nan` (none)
when the list is empty. -/
def meanRating (members : List (Rat × Nat)) : Option Rat :=
  match members with
  | [] => none
  | _ => some ((members.map (fun p => p.1)).sum / (members.length : Rat))

/-- pandas `Series.median` over the vote counts of a member list: middle
element of the sorted values, or the mean of the two middle elements. -/
def medianVotes (members : List (Rat × Nat)) : Option Rat :=
  match members with
  | [] => none
  | _ =>
    let sorted := (members.map (fun p => p.2)).insertionSort (· ≤ ·)
    let n := sorted.length
    if n % 2 = 1 then some ((sorted.getD (n / 2) 0 : Nat) : Rat)
    else some ((((sorted.getD (n / 2 - 1) 0 : Nat) : Rat) + ((sorted.getD (n / 2) 0 : Nat) : Rat)) / 2)

/-- A row of `popularity_by_votes.csv`. -/
structure BandRow where
  vote_band : String
  title_count : Nat
  avg_rating : Option Rat
  median_votes : Option Rat
deriving Repr, DecidableEq

/-- Lines 233-271.  Empty when the popularity collection is empty (the
`if not scatter_df.empty` guard).  Otherwise `groupby("vote_band",
observed=False)` emits one row per *category* — all seven bands, in label
order, including bands no row falls into (those get `size` 0 and `nan`
mean/median). -/
def popularityTable (s : AggState) : List BandRow :=
  if s.scatter = [] then []
  else
    (List.range 7).map (fun i =>
      let members := s.scatter.filter (fun p => inBand i p.2)
      { vote_band := voteBandLabels.getD i ""
        title_count := members.length
        avg_rating := meanRating members
        median_votes := medianVotes members })

/-- Line 198: the runtime quantile levels requested. -/
def quantileLevels : List Rat := [1/10, 1/4, 1/2, 3/4, 9/10]

/-- pandas linear-interpolation quantile at level `q` of a sample list:
`nan` (none) on an empty sample.  With `h = q·(n-1)`, the result is
`x⌊h⌋ + (h - ⌊h⌋)·(x⌈h⌉ - x⌊h⌋)` over the ascending sorted samples. -/
def quantile (rs : List Rat) (q : Rat) : Option Rat :=
  match rs with
  | [] => none
  | _ =>
    let sorted := rs.insertionSort (· ≤ ·)
    let n := sorted.length
    let h : Rat := q * ((n : Rat) - 1)
    let lo := h.floor.toNat
    let hi := h.ceil.toNat
    some (sorted.getD lo 0 + (h - (lo : Rat)) * (sorted.getD hi 0 - sorted.getD lo 0))

/-- Line 275: `median_runtime` is the 0.5 quantile of the runtime
samples (`nan` on an empty sample set). -/
def medianRuntime (s : AggState) : Option Rat :=
  quantile s.runtimes (1/2)

/-- Line 199: share of runtime samples ≥ 120 minutes, guarded to `nan`
(none) when no sample was collected. -/
def longRuntimeShare (s : AggState) : Option Rat :=
  match s.runtimes with
  | [] => none
  | _ => some (((s.runtimes.filter (fun x => decide (120 ≤ x))).length : Rat) / (s.runtimes.length : Rat))

/-- The popularity pairs a row list contributes (collection step 130-132). -/
def scatterOf (rows : List JoinedMovie) : List (Rat × Nat) :=
  (rows.filter (fun r => decide (50000 ≤ r.numVotes))).map (fun r => (r.averageRating, r.numVotes))

/-!  Invariant lemmas: the effect of one row / one chunk / the whole
stream on each accumulator, relating the streamed state to direct
computations over the joined rows. -/

theorem updFun_apply {α β : Type} [DecidableEq α] (f : α → β) (k : α) (v : β) (x : α) :
    updFun f k v x = if x = k then v else f x := rfl

theorem mem_insertIfNew {α : Type} [DecidableEq α] (ks : List α) (k x : α) :
    x ∈ insertIfNew ks k ↔ x ∈ ks ∨ x = k := by
  unfold insertIfNew
  by_cases h : k ∈ ks
  · simp only [if_pos h]
    constructor
    · exact Or.inl
    · rintro (hx | rfl)
      · exact hx
      · exact h
  · simp [if_neg h]

theorem foldGenre_ywSum (a : Rat) (v : Nat) (toks : List String) (s : AggState) :
    (toks.foldl (stepGenreTok a v) s).ywSum = s.ywSum := by
  induction toks generalizing s with
  | nil => rfl
  | cons t ts ih => simpa using ih (stepGenreTok a v s t)

theorem foldGenre_ywVotes (a : Rat) (v : Nat) (toks : List String) (s : AggState) :
    (toks.foldl (stepGenreTok a v) s).ywVotes = s.ywVotes := by
  induction toks generalizing s with
  | nil => rfl
  | cons t ts ih => simpa using ih (stepGenreTok a v s t)

theorem foldGenre_ywKeys (a : Rat) (v : Nat) (toks : List String) (s : AggState) :
    (toks.foldl (stepGenreTok a v) s).ywKeys = s.ywKeys := by
  induction toks generalizing s with
  | nil => rfl
  | cons t ts ih => simpa using ih (stepGenreTok a v s t)

theorem foldGenre_mpy (a : Rat) (v : Nat) (toks : List String) (s : AggState) :
    (toks.foldl (stepGenreTok a v) s).mpy = s.mpy := by
  induction toks generalizing s with
  | nil => rfl
  | cons t ts ih => simpa using ih (stepGenreTok a v s t)

theorem foldGenre_mpyKeys (a : Rat) (v : Nat) (toks : List String) (s : AggState) :
    (toks.foldl (stepGenreTok a v) s).mpyKeys = s.mpyKeys := by
  induction toks generalizing s with
  | nil => rfl
  | cons t ts ih => simpa using ih (stepGenreTok a v s t)

theorem foldGenre_scatter (a : Rat) (v : Nat) (toks : List String) (s : AggState) :
    (toks.foldl (stepGenreTok a v) s).scatter = s.scatter := by
  induction toks generalizing s with
  | nil => rfl
  | cons t ts ih => simpa using ih (stepGenreTok a v s t)

theorem foldGenre_runtimes (a : Rat) (v : Nat) (toks : List String) (s : AggState) :
    (toks.foldl (stepGenreTok a v) s).runtimes = s.runtimes := by
  induction toks generalizing s with
  | nil => rfl
  | cons t ts ih => simpa using ih (stepGenreTok a v s t)

theorem foldGenre_chunkCount (a : Rat) (v : Nat) (toks : List String) (s : AggState) :
    (toks.foldl (stepGenreTok a v) s).chunkCount = s.chunkCount := by
  induction toks generalizing s with
  | nil => rfl
  | cons t ts ih => simpa using ih (stepGenreTok a v s t)

theorem stepYear_ywSum (s : AggState) (r : JoinedMovie) (y : Int) :
    (stepYear s r).ywSum y
      = s.ywSum y + (if r.startYear = some y then r.averageRating * (r.numVotes : Rat) else 0) := by
  cases h : r.startYear with
  | none => simp [stepYear, h]
  | some y' =>
    by_cases hy : y = y'
    · subst hy
      simp [stepYear, h, updFun]
    · have : ¬ (some y' = some y) := by
        simp
        omega
      simp [stepYear, h, updFun, hy, this]

theorem stepYear_ywVotes (s : AggState) (r : JoinedMovie) (y : Int) :
    (stepYear s r).ywVotes y
      = s.ywVotes y + (if r.startYear = some y then r.numVotes else 0) := by
  cases h : r.startYear with
  | none => simp [stepYear, h]
  | some y' =>
    by_cases hy : y = y'
    · subst hy
      simp [stepYear, h, updFun]
    · have : ¬ (some y' = some y) := by
        simp
        omega
      simp [stepYear, h, updFun, hy, this]

theorem stepYear_mpy (s : AggState) (r : JoinedMovie) (y : Int) :
    (stepYear s r).mpy y
      = s.mpy y + (if r.startYear = some y then 1 else 0) := by
  cases h : r.startYear with
  | none => simp [stepYear, h]
  | some y' =>
    by_cases hy : y = y'
    · subst hy
      simp [stepYear, h, updFun]
    · have : ¬ (some y' = some y) := by
        simp
        omega
      simp [stepYear, h, updFun, hy, this]

theorem stepYear_mem_mpyKeys (s : AggState) (r : JoinedMovie) (y : Int) :
    y ∈ (stepYear s r).mpyKeys ↔ y ∈ s.mpyKeys ∨ r.startYear = some y := by
  cases h : r.startYear with
  | none => simp [stepYear, h]
  | some y' =>
    simp only [stepYear, h, mem_insertIfNew, Option.some.injEq]
    constructor
    · rintro (hk | rfl)
      · exact Or.inl hk
      · exact Or.inr rfl
    · rintro (hk | rfl)
      · exact Or.inl hk
      · exact Or.inr rfl

theorem stepYear_mem_ywKeys (s : AggState) (r : JoinedMovie) (y : Int) :
    y ∈ (stepYear s r).ywKeys ↔ y ∈ s.ywKeys ∨ r.startYear = some y := by
  cases h : r.startYear with
  | none => simp [stepYear, h]
  | some y' =>
    simp only [stepYear, h, mem_insertIfNew, Option.some.injEq]
    constructor
    · rintro (hk | rfl)
      · exact Or.inl hk
      · exact Or.inr rfl
    · rintro (hk | rfl)
      · exact Or.inl hk
      · exact Or.inr rfl

theorem stepRow_ywSum (s : AggState) (r : JoinedMovie) (y : Int) :
    (stepRow s r).ywSum y
      = s.ywSum y + (if r.startYear = some y then r.averageRating * (r.numVotes : Rat) else 0) := by
  unfold stepRow stepGenres
  rw [foldGenre_ywSum]
  show (stepYear s r).ywSum y = _
  exact stepYear_ywSum s r y

theorem stepRow_ywVotes (s : AggState) (r : JoinedMovie) (y : Int) :
    (stepRow s r).ywVotes y
      = s.ywVotes y + (if r.startYear = some y then r.numVotes else 0) := by
  unfold stepRow stepGenres
  rw [foldGenre_ywVotes]
  show (stepYear s r).ywVotes y = _
  exact stepYear_ywVotes s r y

theorem stepRow_mpy (s : AggState) (r : JoinedMovie) (y : Int) :
    (stepRow s r).mpy y = s.mpy y + (if r.startYear = some y then 1 else 0) := by
  unfold stepRow stepGenres
  rw [foldGenre_mpy]
  show (stepYear s r).mpy y = _
  exact stepYear_mpy s r y

theorem stepRow_mem_mpyKeys (s : AggState) (r : JoinedMovie) (y : Int) :
    y ∈ (stepRow s r).mpyKeys ↔ y ∈ s.mpyKeys ∨ r.startYear = some y := by
  unfold stepRow stepGenres
  rw [foldGenre_mpyKeys]
  show y ∈ (stepYear s r).mpyKeys ↔ _
  exact stepYear_mem_mpyKeys s r y

theorem stepRow_mem_ywKeys (s : AggState) (r : JoinedMovie) (y : Int) :
    y ∈ (stepRow s r).ywKeys ↔ y ∈ s.ywKeys ∨ r.startYear = some y := by
  unfold stepRow stepGenres
  rw [foldGenre_ywKeys]
  show y ∈ (stepYear s r).ywKeys ↔ _
  exact stepYear_mem_ywKeys s r y

theorem stepRow_scatter (s : AggState) (r : JoinedMovie) :
    (stepRow s r).scatter
      = s.scatter ++ (if 50000 ≤ r.numVotes then [(r.averageRating, r.numVotes)] else []) := by
  unfold stepRow stepGenres
  rw [foldGenre_scatter]
  show (stepCollect (stepYear s r) r).scatter = _
  have hy : (stepYear s r).scatter = s.scatter := by
    cases h : r.startYear <;> simp [stepYear, h]
  simp [stepCollect, hy]

theorem stepRow_runtimes (s : AggState) (r : JoinedMovie) :
    (stepRow s r).runtimes
      = s.runtimes ++ (match r.runtimeMinutes with
        | some m => [m]
        | none => []) := by
  unfold stepRow stepGenres
  rw [foldGenre_runtimes]
  show (stepCollect (stepYear s r) r).runtimes = _
  have hy : (stepYear s r).runtimes = s.runtimes := by
    cases h : r.startYear <;> simp [stepYear, h]
  simp [stepCollect, hy]

theorem stepRow_chunkCount (s : AggState) (r : JoinedMovie) :
    (stepRow s r).chunkCount = s.chunkCount := by
  unfold stepRow stepGenres
  rw [foldGenre_chunkCount]
  show (stepCollect (stepYear s r) r).chunkCount = _
  have hy : (stepYear s r).chunkCount = s.chunkCount := by
    cases h : r.startYear <;> simp [stepYear, h]
  simp [stepCollect, hy]

theorem directWeightedSum_cons (r : JoinedMovie) (rows : List JoinedMovie) (y : Int) :
    directWeightedSum (r :: rows) y
      = (if r.startYear = some y then r.averageRating * (r.numVotes : Rat) else 0)
        + directWeightedSum rows y := by
  unfold directWeightedSum
  rw [List.filter_cons]
  by_cases h : r.startYear = some y
  · simp [h]
  · simp [h]

theorem directVotes_cons (r : JoinedMovie) (rows : List JoinedMovie) (y : Int) :
    directVotes (r :: rows) y
      = (if r.startYear = some y then r.numVotes else 0) + directVotes rows y := by
  unfold directVotes
  rw [List.filter_cons]
  by_cases h : r.startYear = some y
  · simp [h]
  · simp [h]

theorem directWeightedSum_append (l1 l2 : List JoinedMovie) (y : Int) :
    directWeightedSum (l1 ++ l2) y = directWeightedSum l1 y + directWeightedSum l2 y := by
  simp [directWeightedSum, List.filter_append]

theorem directVotes_append (l1 l2 : List JoinedMovie) (y : Int) :
    directVotes (l1 ++ l2) y = directVotes l1 y + directVotes l2 y := by
  simp [directVotes, List.filter_append]

theorem foldRows_ywSum (rows : List JoinedMovie) (s : AggState) (y : Int) :
    (rows.foldl stepRow s).ywSum y = s.ywSum y + directWeightedSum rows y := by
  induction rows generalizing s with
  | nil => simp [directWeightedSum]
  | cons r rs ih =>
    rw [List.foldl_cons, ih, stepRow_ywSum, directWeightedSum_cons, add_assoc]

theorem foldRows_ywVotes (rows : List JoinedMovie) (s : AggState) (y : Int) :
    (rows.foldl stepRow s).ywVotes y = s.ywVotes y + directVotes rows y := by
  induction rows generalizing s with
  | nil => simp [directVotes]
  | cons r rs ih =>
    rw [List.foldl_cons, ih, stepRow_ywVotes, directVotes_cons, Nat.add_assoc]

theorem foldRows_mem_ywKeys (rows : List JoinedMovie) (s : AggState) (y : Int) :
    y ∈ (rows.foldl stepRow s).ywKeys ↔ y ∈ s.ywKeys ∨ ∃ r ∈ rows, r.startYear = some y := by
  induction rows generalizing s with
  | nil => simp
  | cons r rs ih =>
    rw [List.foldl_cons, ih, stepRow_mem_ywKeys]
    constructor
    · rintro ((hk | hr) | ⟨r', hr', hy⟩)
      · exact Or.inl hk
      · exact Or.inr ⟨r, List.mem_cons_self r rs, hr⟩
      · exact Or.inr ⟨r', List.mem_cons_of_mem r hr', hy⟩
    · rintro (hk | ⟨r', hr', hy⟩)
      · exact Or.inl (Or.inl hk)
      · rcases List.mem_cons.mp hr' with rfl | hr''
        · exact Or.inl (Or.inr hy)
        · exact Or.inr ⟨r', hr'', hy⟩

theorem foldRows_scatter (rows : List JoinedMovie) (s : AggState) :
    (rows.foldl stepRow s).scatter = s.scatter ++ scatterOf rows := by
  induction rows generalizing s with
  | nil => simp [scatterOf]
  | cons r rs ih =>
    rw [List.foldl_cons, ih, stepRow_scatter, List.append_assoc]
    congr 1
    unfold scatterOf
    rw [List.filter_cons]
    by_cases h : 50000 ≤ r.numVotes
    · simp [h]
    · simp [h]

theorem foldRows_chunkCount (rows : List JoinedMovie) (s : AggState) :
    (rows.foldl stepRow s).chunkCount = s.chunkCount := by
  induction rows generalizing s with
  | nil => rfl
  | cons r rs ih => rw [List.foldl_cons, ih, stepRow_chunkCount]

theorem processChunk_ywSum (ratings : List RatingRow) (s : AggState) (c : List TitleRow)
    (y : Int) :
    (processChunk ratings s c).ywSum y = s.ywSum y + directWeightedSum (joinChunk ratings c) y := by
  unfold processChunk
  exact foldRows_ywSum _ s y

theorem processChunk_ywVotes (ratings : List RatingRow) (s : AggState) (c : List TitleRow)
    (y : Int) :
    (processChunk ratings s c).ywVotes y = s.ywVotes y + directVotes (joinChunk ratings c) y := by
  unfold processChunk
  exact foldRows_ywVotes _ s y

theorem processChunk_mem_ywKeys (ratings : List RatingRow) (s : AggState) (c : List TitleRow)
    (y : Int) :
    y ∈ (processChunk ratings s c).ywKeys
      ↔ y ∈ s.ywKeys ∨ ∃ r ∈ joinChunk ratings c, r.startYear = some y := by
  unfold processChunk
  exact foldRows_mem_ywKeys _ s y

theorem processChunk_scatter (ratings : List RatingRow) (s : AggState) (c : List TitleRow) :
    (processChunk ratings s c).scatter = s.scatter ++ scatterOf (joinChunk ratings c) := by
  unfold processChunk
  exact foldRows_scatter _ s

theorem processChunk_chunkCount (ratings : List RatingRow) (s : AggState) (c : List TitleRow) :
    (processChunk ratings s c).chunkCount = s.chunkCount + 1 := by
  unfold processChunk
  rfl

theorem runStream_ywSum (ratings : List RatingRow) (chunks : List (List TitleRow)) (y : Int) :
    (runStream ratings chunks).ywSum y = directWeightedSum (joinedAll ratings chunks) y := by
  suffices h : ∀ (s : AggState),
      (chunks.foldl (processChunk ratings) s).ywSum y
        = s.ywSum y + directWeightedSum (chunks.flatMap (joinChunk ratings)) y by
    have := h initState
    simpa [runStream, joinedAll, initState] using this
  induction chunks with
  | nil => intro s; simp [directWeightedSum]
  | cons c cs ih =>
    intro s
    rw [List.foldl_cons, ih, processChunk_ywSum, List.flatMap_cons, directWeightedSum_append,
      add_assoc]

theorem runStream_ywVotes (ratings : List RatingRow) (chunks : List (List TitleRow)) (y : Int) :
    (runStream ratings chunks).ywVotes y = directVotes (joinedAll ratings chunks) y := by
  suffices h : ∀ (s : AggState),
      (chunks.foldl (processChunk ratings) s).ywVotes y
        = s.ywVotes y + directVotes (chunks.flatMap (joinChunk ratings)) y by
    have := h initState
    simpa [runStream, joinedAll, initState] using this
  induction chunks with
  | nil => intro s; simp [directVotes]
  | cons c cs ih =>
    intro s
    rw [List.foldl_cons, ih, processChunk_ywVotes, List.flatMap_cons, directVotes_append,
      Nat.add_assoc]

theorem runStream_scatter (ratings : List RatingRow) (chunks : List (List TitleRow)) :
    (runStream ratings chunks).scatter = scatterOf (joinedAll ratings chunks) := by
  suffices h : ∀ (s : AggState),
      (chunks.foldl (processChunk ratings) s).scatter
        = s.scatter ++ scatterOf (chunks.flatMap (joinChunk ratings)) by
    have := h initState
    simpa [runStream, joinedAll, initState] using this
  induction chunks with
  | nil => intro s; simp [scatterOf]
  | cons c cs ih =>
    intro s
    rw [List.foldl_cons, ih, processChunk_scatter, List.flatMap_cons]
    unfold scatterOf
    rw [List.filter_append, List.map_append, List.append_assoc]

/-!  Support for the top-by-votes table: `dedupFirst` keeps one row per
key and returns a sublist of its input. -/

theorem dedupFirst_sublist (seen : List String) (l : List TopRow) :
    (dedupFirst seen l).Sublist l := by
  induction l generalizing seen with
  | nil => simp [dedupFirst]
  | cons r rs ih =>
    unfold dedupFirst
    by_cases h : r.tconst ∈ seen
    · simp only [if_pos h]
      exact (ih seen).cons r
    · simp only [if_neg h]
      exact (ih (r.tconst :: seen)).cons₂ r

theorem dedupFirst_keys (seen : List String) (l : List TopRow) :
    ((dedupFirst seen l).map (fun r => r.tconst)).Nodup
    ∧ ∀ r ∈ dedupFirst seen l, r.tconst ∉ seen := by
  induction l generalizing seen with
  | nil => simp [dedupFirst]
  | cons r rs ih =>
    unfold dedupFirst
    by_cases h : r.tconst ∈ seen
    · simp only [if_pos h]
      exact ih seen
    · simp only [if_neg h]
      obtain ⟨hnd, hout⟩ := ih (r.tconst :: seen)
      constructor
      · rw [List.map_cons, List.nodup_cons]
        refine ⟨?_, hnd⟩
        intro hmem
        obtain ⟨q, hq, hqt⟩ := List.mem_map.mp hmem
        exact hout q hq (hqt ▸ List.mem_cons_self _ _)
      · intro q hq
        rcases List.mem_cons.mp hq with rfl | hq'
        · exact h
        · exact fun hseen => hout q hq' (List.mem_cons_of_mem _ hseen)

/-!  Support for the popularity bands: for any vote count ≥ 50,000 exactly
one band matches, and the per-band filters partition the collection. -/

theorem band_trichotomy (v : Nat) (hv : 50000 ≤ v) :
    ∃ i, i < 7 ∧ inBand i v = true ∧ ∀ j, j < 7 → inBand j v = true → j = i := by
  by_cases h1 : v < 100000
  · refine ⟨0, by omega, by simp [inBand]; omega, ?_⟩
    intro j hj hb
    interval_cases j <;> simp [inBand] at hb ⊢ <;> omega
  · by_cases h2 : v < 200000
    · refine ⟨1, by omega, by simp [inBand]; omega, ?_⟩
      intro j hj hb
      interval_cases j <;> simp [inBand] at hb ⊢ <;> omega
    · by_cases h3 : v < 500000
      · refine ⟨2, by omega, by simp [inBand]; omega, ?_⟩
        intro j hj hb
        interval_cases j <;> simp [inBand] at hb ⊢ <;> omega
      · by_cases h4 : v < 1000000
        · refine ⟨3, by omega, by simp [inBand]; omega, ?_⟩
          intro j hj hb
          interval_cases j <;> simp [inBand] at hb ⊢ <;> omega
        · by_cases h5 : v < 2000000
          · refine ⟨4, by omega, by simp [inBand]; omega, ?_⟩
            intro j hj hb
            interval_cases j <;> simp [inBand] at hb ⊢ <;> omega
          · by_cases h6 : v < 5000000
            · refine ⟨5, by omega, by simp [inBand]; omega, ?_⟩
              intro j hj hb
              interval_cases j <;> simp [inBand] at hb ⊢ <;> omega
            · refine ⟨6, by omega, by simp [inBand]; omega, ?_⟩
              intro j hj hb
              interval_cases j <;> simp [inBand] at hb ⊢ <;> omega

theorem sum_map_add_nat {ι : Type} (l : List ι) (f g : ι → Nat) :
    (l.map (fun i => f i + g i)).sum = (l.map f).sum + (l.map g).sum := by
  induction l with
  | nil => simp
  | cons a as ih =>
    simp only [List.map_cons, List.sum_cons, ih]
    omega

theorem band_indicator_sum (v : Nat) (hv : 50000 ≤ v) :
    ((List.range 7).map (fun i => if inBand i v then 1 else 0)).sum = 1 := by
  obtain ⟨i, hi, hb, hu⟩ := band_trichotomy v hv
  have hne : ∀ j, j < 7 → j ≠ i → inBand j v = false := by
    intro j hj hji
    cases hb' : inBand j v with
    | false => rfl
    | true => exact absurd (hu j hj hb') hji
  have hr : List.range 7 = [0, 1, 2, 3, 4, 5, 6] := rfl
  rw [hr]
  simp only [List.map_cons, List.map_nil, List.sum_cons, List.sum_nil]
  interval_cases i <;>
    simp [hb, hne 0 (by omega), hne 1 (by omega), hne 2 (by omega), hne 3 (by omega),
      hne 4 (by omega), hne 5 (by omega), hne 6 (by omega)]

theorem band_partition (l : List (Rat × Nat)) (h : ∀ p ∈ l, 50000 ≤ p.2) :
    ((List.range 7).map (fun i => (l.filter (fun p => inBand i p.2)).length)).sum = l.length := by
  induction l with
  | nil => simp
  | cons p ps ih =>
    have hp := h p (List.mem_cons_self p ps)
    have hps : ∀ q ∈ ps, 50000 ≤ q.2 := fun q hq => h q (List.mem_cons_of_mem p hq)
    have hstep : ∀ i : Nat, ((p :: ps).filter (fun q => inBand i q.2)).length
        = (if inBand i p.2 then 1 else 0) + (ps.filter (fun q => inBand i q.2)).length := by
      intro i
      rw [List.filter_cons]
      by_cases hb : inBand i p.2 = true
      · simp [hb]
        omega
      · simp [hb]
    simp only [hstep]
    rw [sum_map_add_nat, band_indicator_sum p.2 hp, ih hps]
    simp
    omega

/-!  Support for monotone accumulation: every joined row carries the
rating of some index record, and each step only adds to the weighted
accumulators. -/

theorem mem_joinChunk_rating {ratings : List RatingRow} {c : List TitleRow} {r : JoinedMovie}
    (h : r ∈ joinChunk ratings c) : ∃ rr ∈ ratings, r.averageRating = rr.averageRating := by
  unfold joinChunk ratingLookup at h
  obtain ⟨t, _, hr⟩ := List.mem_flatMap.mp h
  obtain ⟨rr, hrr, rfl⟩ := List.mem_map.mp hr
  exact ⟨rr, (List.mem_filter.mp hrr).1, rfl⟩

theorem directWeightedSum_nonneg {ratings : List RatingRow} {c : List TitleRow} (y : Int)
    (hr : ∀ rr ∈ ratings, 0 ≤ rr.averageRating) :
    0 ≤ directWeightedSum (joinChunk ratings c) y := by
  unfold directWeightedSum
  apply List.sum_nonneg
  intro x hx
  obtain ⟨r, hrf, rfl⟩ := List.mem_map.mp hx
  have hrj : r ∈ joinChunk ratings c := (List.mem_filter.mp hrf).1
  obtain ⟨rr, hrr, hra⟩ := mem_joinChunk_rating hrj
  exact mul_nonneg (hra ▸ hr rr hrr) (by positivity)

theorem stepGenreTok_gSum (a : Rat) (v : Nat) (s : AggState) (g' g : String) :
    (stepGenreTok a v s g').gSum g = s.gSum g + (if g = g' then a * (v : Rat) else 0) := by
  by_cases h : g = g'
  · subst h
    simp [stepGenreTok, updFun]
  · simp [stepGenreTok, updFun, h]

theorem stepGenreTok_gVotes (a : Rat) (v : Nat) (s : AggState) (g' g : String) :
    (stepGenreTok a v s g').gVotes g = s.gVotes g + (if g = g' then v else 0) := by
  by_cases h : g = g'
  · subst h
    simp [stepGenreTok, updFun]
  · simp [stepGenreTok, updFun, h]

theorem stepGenreTok_gCount (a : Rat) (v : Nat) (s : AggState) (g' g : String) :
    (stepGenreTok a v s g').gCount g = s.gCount g + (if g = g' then 1 else 0) := by
  by_cases h : g = g'
  · subst h
    simp [stepGenreTok, updFun]
  · simp [stepGenreTok, updFun, h]

theorem foldGenre_gSum_mono (a : Rat) (v : Nat) (ha : 0 ≤ a) (toks : List String)
    (s : AggState) (g : String) :
    s.gSum g ≤ (toks.foldl (stepGenreTok a v) s).gSum g := by
  induction toks generalizing s with
  | nil => exact le_refl _
  | cons t ts ih =>
    rw [List.foldl_cons]
    refine le_trans ?_ (ih (stepGenreTok a v s t))
    rw [stepGenreTok_gSum]
    have : (0 : Rat) ≤ (if g = t then a * (v : Rat) else 0) := by
      by_cases h : g = t
      · simpa [h] using mul_nonneg ha (by positivity)
      · simp [h]
    linarith

theorem foldGenre_gVotes_mono (a : Rat) (v : Nat) (toks : List String) (s : AggState)
    (g : String) :
    s.gVotes g ≤ (toks.foldl (stepGenreTok a v) s).gVotes g := by
  induction toks generalizing s with
  | nil => exact le_refl _
  | cons t ts ih =>
    rw [List.foldl_cons]
    refine le_trans ?_ (ih (stepGenreTok a v s t))
    rw [stepGenreTok_gVotes]
    omega

theorem foldGenre_gCount_mono (a : Rat) (v : Nat) (toks : List String) (s : AggState)
    (g : String) :
    s.gCount g ≤ (toks.foldl (stepGenreTok a v) s).gCount g := by
  induction toks generalizing s with
  | nil => exact le_refl _
  | cons t ts ih =>
    rw [List.foldl_cons]
    refine le_trans ?_ (ih (stepGenreTok a v s t))
    rw [stepGenreTok_gCount]
    omega

theorem stepYear_gFields (s : AggState) (r : JoinedMovie) :
    (stepYear s r).gSum = s.gSum ∧ (stepYear s r).gVotes = s.gVotes
    ∧ (stepYear s r).gCount = s.gCount := by
  cases h : r.startYear <;> simp [stepYear, h]

theorem stepRow_gSum_mono (s : AggState) (r : JoinedMovie) (ha : 0 ≤ r.averageRating)
    (g : String) :
    s.gSum g ≤ (stepRow s r).gSum g := by
  unfold stepRow stepGenres
  have h1 : (stepCollect (stepYear s r) r).gSum = s.gSum := by
    have := (stepYear_gFields s r).1
    simp [stepCollect, this]
  calc s.gSum g = (stepCollect (stepYear s r) r).gSum g := by rw [h1]
    _ ≤ _ := foldGenre_gSum_mono _ _ ha _ _ g

theorem stepRow_gVotes_mono (s : AggState) (r : JoinedMovie) (g : String) :
    s.gVotes g ≤ (stepRow s r).gVotes g := by
  unfold stepRow stepGenres
  have h1 : (stepCollect (stepYear s r) r).gVotes = s.gVotes := by
    have := (stepYear_gFields s r).2.1
    simp [stepCollect, this]
  calc s.gVotes g = (stepCollect (stepYear s r) r).gVotes g := by rw [h1]
    _ ≤ _ := foldGenre_gVotes_mono _ _ _ _ g

theorem stepRow_gCount_mono (s : AggState) (r : JoinedMovie) (g : String) :
    s.gCount g ≤ (stepRow s r).gCount g := by
  unfold stepRow stepGenres
  have h1 : (stepCollect (stepYear s r) r).gCount = s.gCount := by
    have := (stepYear_gFields s r).2.2
    simp [stepCollect, this]
  calc s.gCount g = (stepCollect (stepYear s r) r).gCount g := by rw [h1]
    _ ≤ _ := foldGenre_gCount_mono _ _ _ _ g

theorem foldRows_gSum_mono (rows : List JoinedMovie) (s : AggState)
    (hrows : ∀ r ∈ rows, 0 ≤ r.averageRating) (g : String) :
    s.gSum g ≤ (rows.foldl stepRow s).gSum g := by
  induction rows generalizing s with
  | nil => exact le_refl _
  | cons r rs ih =>
    rw [List.foldl_cons]
    refine le_trans (stepRow_gSum_mono s r (hrows r (List.mem_cons_self r rs)) g) ?_
    exact ih _ (fun q hq => hrows q (List.mem_cons_of_mem r hq))

theorem foldRows_gVotes_mono (rows : List JoinedMovie) (s : AggState) (g : String) :
    s.gVotes g ≤ (rows.foldl stepRow s).gVotes g := by
  induction rows generalizing s with
  | nil => exact le_refl _
  | cons r rs ih =>
    rw [List.foldl_cons]
    exact le_trans (stepRow_gVotes_mono s r g) (ih _)

theorem foldRows_gCount_mono (rows : List JoinedMovie) (s : AggState) (g : String) :
    s.gCount g ≤ (rows.foldl stepRow s).gCount g := by
  induction rows generalizing s with
  | nil => exact le_refl _
  | cons r rs ih =>
    rw [List.foldl_cons]
    exact le_trans (stepRow_gCount_mono s r g) (ih _)

theorem runStream_append_one (ratings : List RatingRow) (cs : List (List TitleRow))
    (c : List TitleRow) :
    runStream ratings (cs ++ [c]) = processChunk ratings (runStream ratings cs) c := by
  simp [runStream, List.foldl_append]

/-!  Concrete inputs used by the claim theorems below. -/

/-- The ratings of the end-to-end example of the spec (§8, property 6). -/
def exRatings : List RatingRow := [⟨"t1", 8, 100⟩, ⟨"t2", 6, 50⟩]

/-- The title rows of the end-to-end example, as one batch. -/
def exChunks : List (List TitleRow) :=
  [[⟨"t1", "movie", "A", some 2000, some 90, some "Drama"⟩,
    ⟨"t2", "movie", "B", some 2000, some 100, some "Drama,Comedy"⟩]]

/-- A single rated movie whose runtime is exactly 180 minutes. -/
def r180Ratings : List RatingRow := [⟨"t1", 8, 100⟩]

/-- One batch holding the single 180-minute movie. -/
def r180Chunks : List (List TitleRow) :=
  [[⟨"t1", "movie", "A", some 2000, some 180, some "Drama"⟩]]

/-- A stream of one batch that joins to no row at all (its only row is
not a movie), leaving every accumulator empty. -/
def emptyJoinChunks : List (List TitleRow) :=
  [[⟨"s1", "short", "S", some 2000, some 10, some "Drama"⟩]]

/-- A ratings table with a duplicated identifier. -/
def dupRatings : List RatingRow := [⟨"t1", 8, 100⟩, ⟨"t1", 7, 50⟩]

/-- A single movie row matching the duplicated identifier. -/
def dupTitleChunk : List TitleRow := [⟨"t1", "movie", "A", some 2000, some 90, some "Drama"⟩]

/-- A single movie whose vote count (60,000) falls in the first
popularity band, leaving the other six bands empty. -/
def popRatings : List RatingRow := [⟨"t1", 8, 60000⟩]

/-- One batch holding the single popular movie. -/
def popChunks : List (List TitleRow) :=
  [[⟨"t1", "movie", "A", some 2000, some 90, some "Drama"⟩]]

/-!  The claim theorems. -/

/-- C6: on the spec's end-to-end example — ratings `{("t1",8.0,100),
("t2",6.0,50)}` and titles `{("t1","movie","A","2000","90","Drama"),
("t2","movie","B","2000","100","Drama,Comedy")}` — the pipeline yields
yearly weighted rating 22/3 = 7.333… for year 2000, genre weighted
rating 22/3 for "Drama" and 6.0 for "Comedy" (the multi-genre movie
contributes to both accumulators), and a movies-per-year count of 2 for
year 2000. -/
theorem c6_end_to_end_example :
    yearlyRatingsTableE (runStream exRatings exChunks)
      = Except.ok [{ year := 2000, weighted_average_rating := 22/3, votes := 150 }]
    ∧ genreTableE (runStream exRatings exChunks)
      = Except.ok
          [{ genre := "Drama", title_count := 2, total_votes := 150,
             weighted_average_rating := 22/3 },
           { genre := "Comedy", title_count := 1, total_votes := 50,
             weighted_average_rating := 6 }]
    ∧ moviesPerYearTable (runStream exRatings exChunks) = [(2000, 2)] := by
  refine ⟨?_, ?_, ?_⟩ <;> with_unfolding_all rfl

/-- C3 (code bug): on a stream whose single joined movie has runtime
exactly 180 minutes, one non-missing runtime sample is collected, yet
the bin counts sum to 0: the overflow edge is only appended when the
maximum strictly exceeds 180, so the sample at 180 falls outside every
half-open bin `[lo, hi)` and `pd.cut` drops it, contradicting the claim
that the counts sum to the number of collected samples. -/
theorem c3_bin_sum_fails_at_180 :
    ((runtimeBinsTable (runStream r180Ratings r180Chunks)).map (fun p => p.2)).sum = 0
    ∧ (runStream r180Ratings r180Chunks).runtimes.length = 1 := by
  refine ⟨?_, ?_⟩ <;> with_unfolding_all rfl

/-- C8 (code bug): on a stream that yields no joined rows, every
collection and the set of years with votes are empty, but finalization
does not produce well-formed empty tables: `yearly_rating_records` is
empty, so `pd.DataFrame([])` has no columns and
`.dropna(subset=["weighted_average_rating"])` raises `KeyError` (the
genre table construction fails the same way), aborting the run instead
of emitting empty output. -/
theorem c8_empty_stream_finalization_raises :
    (runStream [] emptyJoinChunks).runtimes = []
    ∧ (runStream [] emptyJoinChunks).scatter = []
    ∧ (runStream [] emptyJoinChunks).ywKeys = []
    ∧ runtimeBinsTable (runStream [] emptyJoinChunks) = []
    ∧ popularityTable (runStream [] emptyJoinChunks) = []
    ∧ medianRuntime (runStream [] emptyJoinChunks) = none
    ∧ longRuntimeShare (runStream [] emptyJoinChunks) = none
    ∧ yearlyRatingsTableE (runStream [] emptyJoinChunks)
        = Except.error "KeyError: weighted_average_rating"
    ∧ genreTableE (runStream [] emptyJoinChunks)
        = Except.error "KeyError: weighted_average_rating" := by
  refine ⟨?_, ?_, ?_, ?_, ?_, ?_, ?_, ?_, ?_⟩ <;> with_unfolding_all rfl

/-- C9 (counterexample): with duplicate identifiers in the ratings
input the Rating Index does not hold one record per identifier —
`set_index` keeps both rows, an index lookup returns two records, and
the join of one movie row produces two joined rows. -/
theorem c9_counterexample_duplicate_key :
    (ratingLookup dupRatings "t1").length = 2
    ∧ (joinChunk dupRatings dupTitleChunk).length = 2 := by
  refine ⟨?_, ?_⟩ <;> with_unfolding_all rfl

/-- C9 (amended): the Rating Index retains every input row, duplicates
included, without crashing; a lookup can therefore return several
records for a duplicated identifier, but when the input identifiers are
pairwise distinct every lookup yields at most one record. -/
theorem c9_lookup_unique_when_keys_nodup (ratings : List RatingRow)
    (h : (ratings.map (fun r => r.tconst)).Nodup) (t : String) :
    (ratingLookup ratings t).length ≤ 1 := by
  induction ratings with
  | nil => simp [ratingLookup]
  | cons r rs ih =>
    rw [List.map_cons, List.nodup_cons] at h
    unfold ratingLookup at ih ⊢
    rw [List.filter_cons]
    by_cases hb : (r.tconst == t) = true
    · have ht : r.tconst = t := by simpa using hb
      have hnil : rs.filter (fun q => q.tconst == t) = [] := by
        rw [List.filter_eq_nil_iff]
        intro q hq
        simp only [beq_iff_eq]
        intro hqt
        exact h.1 (List.mem_map.mpr ⟨q, hq, by rw [hqt, ht]⟩)
      simp [hb, hnil]
    · simp only [hb]
      simp only [Bool.false_eq_true, if_false]
      exact ih h.2

/-- C9 (witness): a duplicate-free one-row index yields at most one
record for the looked-up identifier. -/
theorem c9_lookup_unique_witness :
    (ratingLookup [⟨"t1", 8, 100⟩] "t1").length ≤ 1 :=
  c9_lookup_unique_when_keys_nodup [⟨"t1", 8, 100⟩] (by decide) "t1"

/-- C5 (counterexample): with one collected popularity row of 60,000
votes the popularity table is not restricted to non-empty bands —
`groupby(..., observed=False)` on the band categorical emits all seven
bands, so the table contains a band row with zero members. -/
theorem c5_counterexample_zero_count_row :
    (popularityTable (runStream popRatings popChunks)).length = 7
    ∧ ∃ r ∈ popularityTable (runStream popRatings popChunks), r.title_count = 0 := by
  constructor
  · with_unfolding_all rfl
  · with_unfolding_all decide

/-- C5 (amended): the popularity table is empty exactly when the
popularity collection is empty; otherwise it has one row per fixed band
— all seven, in band order — and a band with zero members appears with
`title_count` 0 (and undefined mean/median) instead of being omitted. -/
theorem c5_zero_member_bands_kept (ratings : List RatingRow) (chunks : List (List TitleRow)) :
    ((runStream ratings chunks).scatter = [] → popularityTable (runStream ratings chunks) = [])
    ∧ ((runStream ratings chunks).scatter ≠ [] →
        (popularityTable (runStream ratings chunks)).length = 7
        ∧ ∀ i, i < 7 → ∃ r ∈ popularityTable (runStream ratings chunks),
            r.vote_band = voteBandLabels.getD i ""
            ∧ r.title_count
              = ((runStream ratings chunks).scatter.filter (fun p => inBand i p.2)).length) := by
  constructor
  · intro hs
    unfold popularityTable
    rw [if_pos hs]
  · intro hs
    constructor
    · unfold popularityTable
      rw [if_neg hs]
      simp
    · intro i hi
      unfold popularityTable
      rw [if_neg hs]
      exact ⟨_, List.mem_map.mpr ⟨i, List.mem_range.mpr hi, rfl⟩, rfl, rfl⟩

/-- C10: the emitted movies-per-year table keeps only years ≥ 1900 —
accumulated earlier years are dropped at finalization — and
`total_rated_movies` sums the per-year counts over only the years from
1900 onward, not over all accumulated years. -/
theorem c10_year_filter_and_total (ratings : List RatingRow) (chunks : List (List TitleRow)) :
    (∀ p ∈ moviesPerYearTable (runStream ratings chunks), 1900 ≤ p.1)
    ∧ (∀ y ∈ (runStream ratings chunks).mpyKeys, 1900 ≤ y →
        (y, (runStream ratings chunks).mpy y) ∈ moviesPerYearTable (runStream ratings chunks))
    ∧ (∀ y ∈ (runStream ratings chunks).mpyKeys, y < 1900 →
        ∀ p ∈ moviesPerYearTable (runStream ratings chunks), p.1 ≠ y)
    ∧ totalRatedMovies (runStream ratings chunks)
        = (((runStream ratings chunks).mpyKeys.filter (fun y => decide (1900 ≤ y))).map
            (runStream ratings chunks).mpy).sum := by
  have h1 : ∀ p ∈ moviesPerYearTable (runStream ratings chunks), 1900 ≤ p.1 := by
    intro p hp
    unfold moviesPerYearTable at hp
    obtain ⟨y, hy, rfl⟩ := List.mem_map.mp hp
    have := (List.mem_filter.mp hy).2
    simpa using this
  refine ⟨h1, ?_, ?_, ?_⟩
  · intro y hy h19
    unfold moviesPerYearTable
    refine List.mem_map.mpr ⟨y, ?_, rfl⟩
    refine List.mem_filter.mpr ⟨?_, by simpa using h19⟩
    exact (List.perm_insertionSort _ _).mem_iff.mpr hy
  · intro y _ hlt p hp
    have := h1 p hp
    omega
  · unfold totalRatedMovies moviesPerYearTable
    rw [List.map_map]
    have hperm :
        (((runStream ratings chunks).mpyKeys.insertionSort (· ≤ ·)).filter
            (fun y => decide (1900 ≤ y))).Perm
          ((runStream ratings chunks).mpyKeys.filter (fun y => decide (1900 ≤ y))) :=
      (List.perm_insertionSort _ _).filter _
    exact (hperm.map _).sum_eq

/-- C2: whenever the top-by-votes table is produced, it has no duplicate
identifiers, is sorted in descending vote order (`topGE`), and has at
most 20 rows.  A missing vote count is impossible for a joined row in
this embedding (`numVotes` is total because the declared `int32` dtype
would reject a missing value at load time), so the `dropna` of line 221
is the identity and the no-missing-votes part of the claim holds by
construction. -/
theorem c2_top_table_shape (ratings : List RatingRow) (chunks : List (List TitleRow))
    (t : List TopRow)
    (h : topTitlesTableE (runStream ratings chunks) = Except.ok t) :
    (t.map (fun r => r.tconst)).Nodup ∧ t.Pairwise topGE ∧ t.length ≤ 20 := by
  unfold topTitlesTableE at h
  by_cases hc : (runStream ratings chunks).chunkCount = 0
  · rw [if_pos hc] at h
    exact absurd h (by simp)
  · rw [if_neg hc] at h
    simp only [Except.ok.injEq] at h
    subst h
    refine ⟨?_, ?_, ?_⟩
    · have hsub :
          ((dedupFirst []
              (((runStream ratings chunks).topRows.map toTopRow).insertionSort topGE)).take
            20).Sublist
            (dedupFirst []
              (((runStream ratings chunks).topRows.map toTopRow).insertionSort topGE)) :=
        List.take_sublist _ _
      exact (dedupFirst_keys [] _).1.sublist (hsub.map _)
    · have hsorted :
          (((runStream ratings chunks).topRows.map toTopRow).insertionSort topGE).Pairwise
            topGE :=
        List.sorted_insertionSort topGE _
      have hdedup := List.Pairwise.sublist (dedupFirst_sublist []
        (((runStream ratings chunks).topRows.map toTopRow).insertionSort topGE)) hsorted
      exact List.Pairwise.sublist (List.take_sublist _ _) hdedup
    · simp [List.length_take]

/-- C2 (witness): on the two-movie example input the produced table —
both rows, ordered 100 votes before 50 — has distinct identifiers,
descending votes and at most 20 rows. -/
theorem c2_top_table_witness :
    (([⟨"t1", "A", some 2000, 8, 100⟩, ⟨"t2", "B", some 2000, 6, 50⟩] :
        List TopRow).map (fun r => r.tconst)).Nodup
    ∧ ([⟨"t1", "A", some 2000, 8, 100⟩, ⟨"t2", "B", some 2000, 6, 50⟩] :
        List TopRow).Pairwise topGE
    ∧ ([⟨"t1", "A", some 2000, 8, 100⟩, ⟨"t2", "B", some 2000, 6, 50⟩] :
        List TopRow).length ≤ 20 :=
  c2_top_table_shape exRatings exChunks _ (by with_unfolding_all rfl)

/-- C4: each collected popularity row has at least 50,000 votes; the
vote bands are mutually exclusive and, with the final open-ended band,
cover every collected row, so the per-band counts sum to the size of the
collection (no row double-counted or dropped). -/
theorem c4_band_partition_covers (ratings : List RatingRow) (chunks : List (List TitleRow)) :
    (∀ p ∈ (runStream ratings chunks).scatter, 50000 ≤ p.2)
    ∧ (∀ p ∈ (runStream ratings chunks).scatter,
        ∃ i, i < 7 ∧ inBand i p.2 = true ∧ ∀ j, j < 7 → inBand j p.2 = true → j = i)
    ∧ ((popularityTable (runStream ratings chunks)).map (fun r => r.title_count)).sum
        = (runStream ratings chunks).scatter.length := by
  have h50 : ∀ p ∈ (runStream ratings chunks).scatter, 50000 ≤ p.2 := by
    intro p hp
    rw [runStream_scatter] at hp
    unfold scatterOf at hp
    obtain ⟨r, hr, rfl⟩ := List.mem_map.mp hp
    have := (List.mem_filter.mp hr).2
    simpa using this
  refine ⟨h50, fun p hp => band_trichotomy p.2 (h50 p hp), ?_⟩
  unfold popularityTable
  by_cases hs : (runStream ratings chunks).scatter = []
  · rw [if_pos hs, hs]
    simp
  · rw [if_neg hs, List.map_map]
    exact band_partition _ h50

/-- C1: every row of the yearly ratings table reports exactly
(Σ rating·votes) / (Σ votes) over the joined rows of the whole stream
whose known year is that row's year, and a year whose accumulated vote
total is zero never appears in the table. -/
theorem c1_yearly_weighted_average (ratings : List RatingRow) (chunks : List (List TitleRow))
    (t : List YearlyRow)
    (h : yearlyRatingsTableE (runStream ratings chunks) = Except.ok t) :
    (∀ row ∈ t,
        row.votes = directVotes (joinedAll ratings chunks) row.year
        ∧ row.votes ≠ 0
        ∧ row.weighted_average_rating
          = directWeightedSum (joinedAll ratings chunks) row.year / (row.votes : Rat))
    ∧ (∀ y : Int, directVotes (joinedAll ratings chunks) y = 0
        → y ∉ t.map (fun row => row.year)) := by
  unfold yearlyRatingsTableE at h
  by_cases hk : (runStream ratings chunks).ywKeys = []
  · rw [if_pos hk] at h
    exact absurd h (by simp)
  · rw [if_neg hk] at h
    simp only [Except.ok.injEq] at h
    subst h
    constructor
    · intro row hrow
      obtain ⟨y, hy, rfl⟩ := List.mem_map.mp hrow
      have hyf := (List.perm_insertionSort _ _).mem_iff.mp hy
      have hnz : (runStream ratings chunks).ywVotes y ≠ 0 := by
        have := (List.mem_filter.mp hyf).2
        simpa using this
      refine ⟨?_, hnz, ?_⟩
      · exact runStream_ywVotes ratings chunks y
      · show (runStream ratings chunks).ywSum y / ((runStream ratings chunks).ywVotes y : Rat)
            = directWeightedSum (joinedAll ratings chunks) y
              / (((runStream ratings chunks).ywVotes y : Nat) : Rat)
        rw [runStream_ywSum]
    · intro y h0 hmem
      obtain ⟨row, hrow, hyear⟩ := List.mem_map.mp hmem
      obtain ⟨y', hy', rfl⟩ := List.mem_map.mp hrow
      have hyy : y' = y := hyear
      subst hyy
      have hnz : (runStream ratings chunks).ywVotes y' ≠ 0 := by
        have := (List.mem_filter.mp ((List.perm_insertionSort _ _).mem_iff.mp hy')).2
        simpa using this
      rw [runStream_ywVotes] at hnz
      exact hnz h0

/-- C1 (witness): on the two-movie example the single table row for
year 2000 carries vote total 150 and average 22/3, equal to the direct
weighted average over the joined rows. -/
theorem c1_yearly_weighted_average_witness :
    ((150 : Nat) = directVotes (joinedAll exRatings exChunks) 2000
      ∧ (150 : Nat) ≠ 0
      ∧ (22/3 : Rat) = directWeightedSum (joinedAll exRatings exChunks) 2000 / ((150 : Nat) : Rat)) :=
  (c1_yearly_weighted_average exRatings exChunks
      [{ year := 2000, weighted_average_rating := 22/3, votes := 150 }]
      (by with_unfolding_all rfl)).1
    { year := 2000, weighted_average_rating := 22/3, votes := 150 }
    (List.mem_singleton.mpr rfl)

/-- C7: with non-negative ratings, appending one more batch to the
stream never decreases any per-year or per-genre weighted-sum,
vote-total or title count (monotone accumulation), and the state stores
no average — the yearly table's average is derived at finalization as
stored-weighted-sum / stored-vote-total. -/
theorem c7_monotone_accumulation (ratings : List RatingRow) (cs : List (List TitleRow))
    (c : List TitleRow) (hr : ∀ rr ∈ ratings, 0 ≤ rr.averageRating) :
    (∀ y : Int,
        (runStream ratings cs).ywSum y ≤ (runStream ratings (cs ++ [c])).ywSum y
        ∧ (runStream ratings cs).ywVotes y ≤ (runStream ratings (cs ++ [c])).ywVotes y)
    ∧ (∀ g : String,
        (runStream ratings cs).gSum g ≤ (runStream ratings (cs ++ [c])).gSum g
        ∧ (runStream ratings cs).gVotes g ≤ (runStream ratings (cs ++ [c])).gVotes g
        ∧ (runStream ratings cs).gCount g ≤ (runStream ratings (cs ++ [c])).gCount g)
    ∧ (∀ t, yearlyRatingsTableE (runStream ratings (cs ++ [c])) = Except.ok t →
        ∀ row ∈ t,
          row.weighted_average_rating
            = (runStream ratings (cs ++ [c])).ywSum row.year
              / ((runStream ratings (cs ++ [c])).ywVotes row.year : Rat)) := by
  rw [runStream_append_one]
  refine ⟨?_, ?_, ?_⟩
  · intro y
    constructor
    · rw [processChunk_ywSum]
      have := @directWeightedSum_nonneg ratings c y hr
      linarith
    · rw [processChunk_ywVotes]
      omega
  · intro g
    refine ⟨?_, ?_, ?_⟩
    · show (runStream ratings cs).gSum g ≤ (processChunk ratings (runStream ratings cs) c).gSum g
      unfold processChunk
      refine foldRows_gSum_mono _ _ ?_ g
      intro r hrj
      obtain ⟨rr, hrr, hra⟩ := mem_joinChunk_rating hrj
      exact hra ▸ hr rr hrr
    · show (runStream ratings cs).gVotes g
          ≤ (processChunk ratings (runStream ratings cs) c).gVotes g
      unfold processChunk
      exact foldRows_gVotes_mono _ _ g
    · show (runStream ratings cs).gCount g
          ≤ (processChunk ratings (runStream ratings cs) c).gCount g
      unfold processChunk
      exact foldRows_gCount_mono _ _ g
  · intro t ht row hrow
    unfold yearlyRatingsTableE at ht
    by_cases hk : (processChunk ratings (runStream ratings cs) c).ywKeys = []
    · rw [if_pos hk] at ht
      exact absurd ht (by simp)
    · rw [if_neg hk] at ht
      simp only [Except.ok.injEq] at ht
      subst ht
      obtain ⟨y, hy, rfl⟩ := List.mem_map.mp hrow
      rfl

/-- The first batch for the monotonicity witness. -/
def monoFirstChunks : List (List TitleRow) :=
  [[⟨"t1", "movie", "A", some 2000, some 90, some "Drama"⟩]]

/-- The appended batch for the monotonicity witness. -/
def monoNextChunk : List TitleRow :=
  [⟨"t2", "movie", "B", some 2000, some 100, some "Drama,Comedy"⟩]

/-- C7 (witness): appending the second example batch does not decrease
the year-2000 weighted sum. -/
theorem c7_monotone_accumulation_witness :
    (runStream exRatings monoFirstChunks).ywSum 2000
      ≤ (runStream exRatings (monoFirstChunks ++ [monoNextChunk])).ywSum 2000 :=
  ((c7_monotone_accumulation exRatings monoFirstChunks monoNextChunk
      (by with_unfolding_all decide)).1 2000).1

end ImdbAnalyze
